import Mathlib

/-!
Shallow embedding of the hannahttp HTTP/1.1 server library (TypeScript) in
Lean 4, together with theorems settling the frozen claims C1..C10 about it.

Each definition mirrors one function of the TypeScript source; the doc
comment of every definition names the source function it embeds.  JavaScript
peculiarities that matter to the claims (truthiness of `0` and `""`,
`String.prototype.substring` index swapping, regexp semantics) are modelled
explicitly and noted where they occur.
-/

/-! ### FIFO queue (src/misc/queue.ts)

The source keeps a singly linked list with a `_dequeue` (head) pointer, an
`_enqueue` (tail) pointer and an explicit `_size` counter.  The embedding
keeps the list reachable from the head pointer (`front`) and the counter
(`size`); the tail pointer is representation bookkeeping for O(1) append and
appending at the end of `front` is exactly what `this._enqueue.next = node`
achieves. -/

structure Queue (T : Type) where
  front : List T
  size : Nat
deriving DecidableEq

/-- `new Queue()`: `_size = 0`, both pointers unset. -/
def Queue.init {T : Type} : Queue T := ⟨[], 0⟩

/-- `Queue.dequeue` (queue.ts lines 39-53): if `_size === 0` return
`undefined`; otherwise pop the head node, decrement `_size`, return its
value.  The `[]`-with-positive-size branch mirrors the crash the source's
`this._dequeue!` non-null assertion would be (it is unreachable from
`Queue.init`, see the size invariant proved below). -/
def Queue.dequeue {T : Type} (q : Queue T) : Option T × Queue T :=
  if q.size = 0 then (none, q)
  else
    match q.front with
    | [] => (none, { front := [], size := q.size - 1 })
    | v :: rest => (some v, { front := rest, size := q.size - 1 })

/-- `Queue.enqueue` (queue.ts lines 60-76): link a fresh node after the tail
pointer and increment `_size`; when the size becomes 1 the head pointer is
set to the new node (here: appending to an empty `front`). -/
def Queue.enqueue {T : Type} (q : Queue T) (value : T) : Queue T :=
  { front := q.front ++ [value], size := q.size + 1 }

/-- An operation on a queue: the two public mutators of queue.ts. -/
inductive QueueOp (T : Type) where
  | enq (v : T)
  | deq
deriving DecidableEq

/-- Run one operation (a `deq` keeps only the resulting queue). -/
def Queue.runOp {T : Type} (q : Queue T) : QueueOp T → Queue T
  | .enq v => q.enqueue v
  | .deq => (q.dequeue).2

/-- Run a sequence of operations from a given queue. -/
def Queue.runOps {T : Type} (q : Queue T) (ops : List (QueueOp T)) : Queue T :=
  ops.foldl Queue.runOp q

/-- Reference model for a FIFO queue: the list of values enqueued and not
yet dequeued, oldest first.  `enq` appends, `deq` drops the head (and keeps
`[]` on an empty queue, as the source returns `undefined` without change). -/
def queueSpecStep {T : Type} (l : List T) : QueueOp T → List T
  | .enq v => l ++ [v]
  | .deq => l.tail

/-- The reference state after a sequence of operations from the empty queue. -/
def queueSpec {T : Type} (ops : List (QueueOp T)) : List T :=
  ops.foldl queueSpecStep []

/-! ### Header multi-map (src/http/headers.ts) -/

/-- The value stored under one key of the JS object backing `HTTPHeaders`:
either a single string or an array of strings. -/
inductive HeaderValue where
  | single (s : String)
  | multi (l : List String)
deriving DecidableEq

/-- The `headers` JS object: string keys in insertion order, unique keys.
Assignment to an existing key keeps its position; a new key is appended. -/
abbrev HTTPHeaders := List (String × HeaderValue)

/-- `key.toLowerCase()` for the ASCII header keys the source folds:
per-character lowercase mapping on the string's characters (kernel-reducible,
unlike the byte-position based `String.toLower`). -/
def jsToLowerCase (s : String) : String :=
  ⟨s.data.map Char.toLower⟩

/-- Property read `this.headers[key]` on a JS object. -/
def jsObjGet (m : HTTPHeaders) (k : String) : Option HeaderValue :=
  match m with
  | [] => none
  | (k2, v) :: rest => if k2 = k then some v else jsObjGet rest k

/-- Property write `this.headers[key] = v` on a JS object: replace in place
if the key exists, otherwise append. -/
def jsObjSet (m : HTTPHeaders) (k : String) (v : HeaderValue) : HTTPHeaders :=
  match m with
  | [] => [(k, v)]
  | (k2, v2) :: rest => if k2 = k then (k2, v) :: rest else (k2, v2) :: jsObjSet rest k v

/-- JS truthiness of `this.headers[key] ?? undefined` as used by
`if (!header)`: `undefined` and the empty string are falsy; an array
(even empty) is truthy. -/
def jsFalsyHeader : Option HeaderValue → Bool
  | none => true
  | some (.single s) => s = ""
  | some (.multi _) => false

/-- `HTTPHeaders.addHeader` (headers.ts lines 42-57): lowercase the key;
if there is no (truthy) current value store the string, if the current value
is an array push onto it, otherwise turn the single value into a two-element
array. -/
def HTTPHeaders.addHeader (m : HTTPHeaders) (key value : String) : HTTPHeaders :=
  let k := jsToLowerCase key
  let header := jsObjGet m k
  if jsFalsyHeader header then jsObjSet m k (.single value)
  else
    match header with
    | some (.multi l) => jsObjSet m k (.multi (l ++ [value]))
    | some (.single s) => jsObjSet m k (.multi [s, value])
    | none => jsObjSet m k (.single value)

/-- `HTTPHeaders.setSingleHeader` (headers.ts lines 65-68):
`this.headers[key] = value` — note the source does NOT lowercase the key
here. -/
def HTTPHeaders.setSingleHeader (m : HTTPHeaders) (key value : String) : HTTPHeaders :=
  jsObjSet m key (.single value)

/-- `HTTPHeaders.getHeader` (headers.ts lines 75-86): lowercase the key and
return the stored values as an array (`undefined` when absent or falsy). -/
def HTTPHeaders.getHeader (m : HTTPHeaders) (key : String) : Option (List String) :=
  let k := jsToLowerCase key
  let header := jsObjGet m k
  if jsFalsyHeader header then none
  else
    match header with
    | some (.multi l) => some l
    | some (.single s) => some [s]
    | none => none

/-- `HTTPHeaders.getSingleHeader` (headers.ts lines 95-110): lowercase the
key; for an array value return the element at `index` (`undefined` when out
of range, as JS indexing), for a single value return it regardless of
`index`. -/
def HTTPHeaders.getSingleHeader (m : HTTPHeaders) (key : String) (index : Nat := 0) :
    Option String :=
  let k := jsToLowerCase key
  let header := jsObjGet m k
  if jsFalsyHeader header then none
  else
    match header with
    | some (.multi l) => l.get? index
    | some (.single s) => some s
    | none => none

/-! ### Path matcher (src/router/path-matcher.ts)

`HTTPPathMatcher.fromPath` compiles a route pattern into a JS regular
expression built from per-segment fragments joined by `\/`:
a literal segment is inserted verbatim, `:name` becomes
`(?<name>[A-Za-z0-9_-]+)` and a trailing `*` becomes `(?<__remainder__>.*)`.
The embedding keeps the compiled matcher as that segment list (plus the
wildcard flag) and `matchPath` implements the semantics of the anchored
regular expression `^seg1\/seg2\/...\/segN$` on the cleaned path; literal
segments are matched by literal character equality. -/

/-- `String.prototype.substring(a, b)` on a character list: each index is
clamped to `[0, length]`, and the two indices are swapped when
`start > end`. -/
def jsSubstringList (cs : List Char) (a b : Nat) : List Char :=
  let a2 := min a cs.length
  let b2 := min b cs.length
  (cs.take (max a2 b2)).drop (min a2 b2)

/-- `pathString.replace(/\\+/, "/")`: the regexp matches one or more
BACKSLASH characters (`\\+`), and without the `g` flag only the first
(leftmost, maximal) run is replaced by a single `/`.  Forward slashes are
not touched. -/
def replaceFirstBackslashRun : List Char → List Char
  | [] => []
  | c :: cs =>
    if c = '\\' then '/' :: cs.dropWhile (fun d => d = '\\')
    else c :: replaceFirstBackslashRun cs

/-- `HTTPPathMatcher.cleanPath` (path-matcher.ts lines 37-59; identical in
HTTPUriMatcher.ts lines 22-43): apply `replace(/\\+/, "/")`, then when a
leading and/or trailing `/` is present take
`substring(prefix ? 1 : 0, suffix ? length - 1 : length)`. -/
def HTTPPathMatcher.cleanPath (pathString : String) : String :=
  let cs := replaceFirstBackslashRun pathString.data
  let prefixSlashPresent : Bool := cs.head? = some '/'
  let suffixSlashPresent : Bool := cs.getLast? = some '/'
  if prefixSlashPresent || suffixSlashPresent then
    let startIndex : Nat := if prefixSlashPresent then 1 else 0
    let endIndex : Nat := if suffixSlashPresent then cs.length - 1 else cs.length
    ⟨jsSubstringList cs startIndex endIndex⟩
  else ⟨cs⟩

/-- One regular-expression fragment of a compiled matcher. -/
inductive HTTPPathSegment where
  | lit (s : String)
  | param (name : String)
deriving DecidableEq

/-- The compiled matcher: the regular expression
`^segments.join("\/") [\/(?<__remainder__>.*)] $` plus the collected
parameter names (path-matcher.ts constructor). -/
structure HTTPPathMatcher where
  segments : List HTTPPathSegment
  wildcard : Bool
  parameterNames : List String
deriving DecidableEq

/-- `pathString.split("/")` (note `"".split("/")` is `[""]`). -/
def splitOnSlash : List Char → List (List Char)
  | [] => [[]]
  | c :: cs =>
    match splitOnSlash cs with
    | [] => [[]]
    | g :: gs => if c = '/' then [] :: g :: gs else (c :: g) :: gs

/-- Prefix test on character lists (`String.prototype.startsWith`). -/
def charsStartsWith : List Char → List Char → Bool
  | [], _ => true
  | _ :: _, [] => false
  | p :: ps, c :: cs => p = c && charsStartsWith ps cs

/-- Suffix test on character lists (`String.prototype.endsWith`). -/
def charsEndsWith (suffix cs : List Char) : Bool :=
  charsStartsWith suffix.reverse cs.reverse

/-- The segment-classification loop of `HTTPPathMatcher.fromPath`
(path-matcher.ts lines 74-113): `:name` segments declare parameters (with
the duplicate-name and reserved `__..__` checks, in source order), a `*`
must be the final segment, anything else is a literal. -/
def buildSegments (segStrings : List (List Char)) (names : List String) :
    Except String (List HTTPPathSegment × Bool × List String) :=
  match segStrings with
  | [] => .ok ([], false, names)
  | seg :: rest =>
    if charsStartsWith [':'] seg then
      let parameterName : String := ⟨seg.drop 1⟩
      if names.contains parameterName then
        .error "Parameter name used more than one time, this is not allowed!"
      else if charsStartsWith ['_', '_'] parameterName.data &&
          charsEndsWith ['_', '_'] parameterName.data then
        .error "Parameters starting and ending with reserved marker are for system usage!"
      else
        match buildSegments rest (names ++ [parameterName]) with
        | .error e => .error e
        | .ok (segs, wild, names2) =>
          .ok (HTTPPathSegment.param parameterName :: segs, wild, names2)
    else if seg = ['*'] then
      if rest ≠ [] then .error "Cannot use wildcard pattern while not at the end of the path."
      else .ok ([], true, names)
    else
      match buildSegments rest names with
      | .error e => .error e
      | .ok (segs, wild, names2) => .ok (HTTPPathSegment.lit ⟨seg⟩ :: segs, wild, names2)

/-- `HTTPPathMatcher.fromPath` (path-matcher.ts lines 66-122): clean the
pattern, split it on `/`, classify each segment and build the compiled
matcher. -/
def HTTPPathMatcher.fromPath (pathString : String) : Except String HTTPPathMatcher :=
  let cleaned := HTTPPathMatcher.cleanPath pathString
  let segStrings := splitOnSlash cleaned.data
  match buildSegments segStrings [] with
  | .error e => .error e
  | .ok (segs, wild, names) => .ok ⟨segs, wild, names⟩

/-- The result object of a successful match (path-match.ts): the parameter
map in parameter order, and the text consumed by the wildcard. -/
structure HTTPPathMatch where
  parameters : List (String × String)
  remainder : Option String
deriving DecidableEq

/-- The character class `[A-Za-z0-9_-]` of a parameter fragment. -/
def paramChar (c : Char) : Bool :=
  ('A' ≤ c && c ≤ 'Z') || ('a' ≤ c && c ≤ 'z') || ('0' ≤ c && c ≤ '9') || c = '_' || c = '-'

/-- Consume a literal regexp fragment: the input must start with the
literal's characters; returns the rest. -/
def stripLit : List Char → List Char → Option (List Char)
  | [], cs => some cs
  | _ :: _, [] => none
  | l :: ls, c :: cs => if c = l then stripLit ls cs else none

/-- The maximal run of `[A-Za-z0-9_-]` characters at the front of the input
(the greedy match of `[A-Za-z0-9_-]+`; since the class excludes `/` and the
fragment is always followed by `\/` or the end anchor, the greedy maximal
run is exactly what the backtracking regexp engine accepts). -/
def takeParamRun : List Char → List Char × List Char
  | [] => ([], [])
  | c :: cs =>
    if paramChar c then
      let (run, rest) := takeParamRun cs
      (c :: run, rest)
    else ([], c :: cs)

/-- Consume one segment fragment; returns the parameter bindings it
produces and the remaining input. -/
def consumeSegment (seg : HTTPPathSegment) (cs : List Char) :
    Option (List (String × String) × List Char) :=
  match seg with
  | .lit s =>
    match stripLit s.data cs with
    | none => none
    | some cs2 => some ([], cs2)
  | .param name =>
    let (run, cs2) := takeParamRun cs
    if run.isEmpty then none else some ([(name, String.mk run)], cs2)

/-- The anchored regular expression `^ fragments.join("\/") $` applied to a
cleaned path: fragments are separated by a literal `/`; when the wildcard is
present the final `(?<__remainder__>.*)` captures everything left after its
separating `/`. -/
def matchSegments : List HTTPPathSegment → Bool → List Char →
    Option (List (String × String) × Option String)
  | [], wild, cs =>
    if wild then some ([], some (String.mk cs))
    else if cs.isEmpty then some ([], none) else none
  | seg :: rest, wild, cs =>
    match consumeSegment seg cs with
    | none => none
    | some (binds, cs2) =>
      if rest.isEmpty && !wild then
        if cs2.isEmpty then some (binds, none) else none
      else
        match cs2 with
        | '/' :: cs3 =>
          match matchSegments rest wild cs3 with
          | none => none
          | some (binds2, rem) => some (binds ++ binds2, rem)
        | _ => none

/-- `HTTPPathMatcher.match` (path-matcher.ts lines 129-156; the source name
`match` is a Lean keyword): clean the input path, run the compiled regular
expression against it, and on success return the parameter map (in
parameter-name order) and the `__remainder__` capture. -/
def HTTPPathMatcher.matchPath (m : HTTPPathMatcher) (pathString : String) :
    Option HTTPPathMatch :=
  let cleaned := HTTPPathMatcher.cleanPath pathString
  match matchSegments m.segments m.wildcard cleaned.data with
  | none => none
  | some (binds, rem) => some ⟨binds, rem⟩

/-! ### Router (src/HTTPRouter.ts) -/

/-- `HTTPSimpleRouterMethod` (HTTPRouter.ts lines 33-43). -/
inductive HTTPSimpleRouterMethod where
  | GET | PUT | POST | HEAD | DELETE | CONNECT | OPTIONS | TRACE | PATCH
deriving DecidableEq

/-- A handler of a router rule: a callback (identified here by a value of
`κ`; its effect is supplied separately when running a chain) or a nested
sub-router, which is its list of elements
`[method-or-null, matcher, handler]` (HTTPRouter.ts lines 45-50). -/
inductive HTTPSimpleRouterHandler (κ : Type) : Type where
  | callback (k : κ)
  | router (elems : List (Option HTTPSimpleRouterMethod × HTTPPathMatcher × HTTPSimpleRouterHandler κ))

/-- One registered rule. -/
abbrev HTTPSimpleRouterElement (κ : Type) :=
  Option HTTPSimpleRouterMethod × HTTPPathMatcher × HTTPSimpleRouterHandler κ

/-- The method guard of `HTTPSimpleRouter.callbacks` (HTTPRouter.ts lines
272-280): the rule is considered when its method is `null` (wildcard),
equals the request method, or the rule is GET and the request is HEAD. -/
def methodSelects (ruleMethod : Option HTTPSimpleRouterMethod)
    (method : HTTPSimpleRouterMethod) : Bool :=
  ruleMethod = none || ruleMethod = some method ||
    (ruleMethod = some HTTPSimpleRouterMethod.GET && method = HTTPSimpleRouterMethod.HEAD)

mutual
/-- Size measure for termination of `HTTPSimpleRouter.callbacks`. -/
def routerHandlerSize {κ : Type} : HTTPSimpleRouterHandler κ → Nat
  | .callback _ => 1
  | .router elems => 1 + routerElemsSize elems

/-- Size measure for a rule list. -/
def routerElemsSize {κ : Type} : List (HTTPSimpleRouterElement κ) → Nat
  | [] => 0
  | (_, _, h) :: rest => 1 + routerHandlerSize h + routerElemsSize rest
end

/-- `HTTPSimpleRouter.callbacks` (HTTPRouter.ts lines 266-312): walk the
rule list in insertion order; skip a rule whose method guard or matcher
fails; for a sub-router yield all of its callbacks computed on the wildcard
remainder of the match — `httpUriMatcherResult.remainder ?? ""` — and for a
callback yield the pair (match result, callback). -/
def HTTPSimpleRouter.callbacks {κ : Type}
    (elems : List (HTTPSimpleRouterElement κ))
    (method : HTTPSimpleRouterMethod) (path : String) :
    List (HTTPPathMatch × κ) :=
  match elems with
  | [] => []
  | (ruleMethod, matcher, handler) :: rest =>
    if methodSelects ruleMethod method then
      match matcher.matchPath path with
      | none => HTTPSimpleRouter.callbacks rest method path
      | some result =>
        match handler with
        | .callback k => (result, k) :: HTTPSimpleRouter.callbacks rest method path
        | .router inner =>
          HTTPSimpleRouter.callbacks inner method (result.remainder.getD "") ++
            HTTPSimpleRouter.callbacks rest method path
    else HTTPSimpleRouter.callbacks rest method path
termination_by routerElemsSize elems
decreasing_by
  all_goals simp [routerElemsSize, routerHandlerSize]
  all_goals omega

/-- `path.replace(/\/+/g, "/")`: every run of forward slashes collapses to
one (this is the ROUTER's own cleaner, HTTPRouter.ts line 251 — unlike the
path matcher's `cleanPath` it uses the right character class and the `g`
flag). -/
def collapseSlashRuns : List Char → List Char
  | [] => []
  | c :: cs =>
    if c = '/' then '/' :: collapseSlashRuns (cs.dropWhile (fun d => d = '/'))
    else c :: collapseSlashRuns cs
termination_by cs => cs.length
decreasing_by
  · exact Nat.lt_succ_of_le (List.dropWhile_sublist _).length_le
  · exact Nat.lt_succ_of_le (Nat.le_refl _)

/-- `HTTPSimpleRouter.cleanPath` (HTTPRouter.ts lines 249-259): collapse
slash runs, then trim one trailing slash unless the path is exactly "/". -/
def HTTPSimpleRouter.cleanPath (path : String) : String :=
  let collapsed := collapseSlashRuns path.data
  if collapsed.getLast? = some '/' ∧ collapsed ≠ ['/'] then
    ⟨collapsed.take (collapsed.length - 1)⟩
  else ⟨collapsed⟩

/-- The callback loop of `HTTPSimpleRouter.handle` (HTTPRouter.ts lines
337-344) with the callback effects abstracted into the pure map `beh`
(what each callback returns once awaited): run each selected callback in
order and break as soon as one returns `false`.  The returned list records
the callbacks that were invoked, in invocation order. -/
def runCallbacks {κ : Type} (beh : κ → Bool) :
    List (HTTPPathMatch × κ) → List κ
  | [] => []
  | (_, k) :: rest => if beh k then k :: runCallbacks beh rest else [k]

/-- `HTTPSimpleRouter.handle` (HTTPRouter.ts lines 321-345): clean the
dispatch path, compute the selected callbacks, and run them with
short-circuiting; returns the invocation list. -/
def HTTPSimpleRouter.handle {κ : Type}
    (elems : List (HTTPSimpleRouterElement κ)) (beh : κ → Bool)
    (method : HTTPSimpleRouterMethod) (path : String) : List κ :=
  runCallbacks beh
    (HTTPSimpleRouter.callbacks elems method (HTTPSimpleRouter.cleanPath path))

/-- The rule-selection condition exactly as claim C2 words it, for one rule:
the method is the wildcard, equals the request method, or the rule's method
is GET while the request method is HEAD; and the compiled matcher matches
the path. -/
def ruleSelected {κ : Type} (method : HTTPSimpleRouterMethod) (path : String)
    (e : HTTPSimpleRouterElement κ) : Bool :=
  methodSelects e.1 method && (e.2.1.matchPath path).isSome

/-- Modelled from the spec: claim C5's reading of sub-router dispatch — the
sub-router is evaluated "against the matched wildcard remainder when one is
present, and against the original path when no wildcard remainder is
present".  Identical to `HTTPSimpleRouter.callbacks` except that a missing
remainder recurses on the original path instead of the empty string.  Kept
for comparison against the source-derived definition. -/
def callbacksClaimC5 {κ : Type}
    (elems : List (HTTPSimpleRouterElement κ))
    (method : HTTPSimpleRouterMethod) (path : String) :
    List (HTTPPathMatch × κ) :=
  match elems with
  | [] => []
  | (ruleMethod, matcher, handler) :: rest =>
    if methodSelects ruleMethod method then
      match matcher.matchPath path with
      | none => callbacksClaimC5 rest method path
      | some result =>
        match handler with
        | .callback k => (result, k) :: callbacksClaimC5 rest method path
        | .router inner =>
          callbacksClaimC5 inner method (result.remainder.getD path) ++
            callbacksClaimC5 rest method path
    else callbacksClaimC5 rest method path
termination_by routerElemsSize elems
decreasing_by
  all_goals simp [routerElemsSize, routerHandlerSize]
  all_goals omega

/-! ### Response writer (the `HTTPResponse` class shipped with
src/headers/*.ts — the current implementation; the older duplicate in
src/HTTPResponse.ts differs where noted)

The embedding replaces the socket by an explicit wire trace (`out`),
`fs.stat` by a size argument, the session by the strings it contributes to
headers, and the Node stream plumbing by its completed observable effect:
which framing is applied and which bytes reach the socket.  A body
transform's only property used by the claims is its presence, so the two
transform stacks are kept as counts. -/

/-- Modelled from the spec: the string values of the `HTTPHeaderType` enum
(its source file `HTTPHeaderType.ts` is not in the repository snapshot; the
spec's wire-protocol section names the standard header keys
`Date`, `Server`, `Connection`, `Content-Type`, `Content-Length`,
`Transfer-Encoding`, `Content-Encoding`). -/
def HTTPHeaderType.ContentLength : String := "Content-Length"

/-- Modelled from the spec: see `HTTPHeaderType.ContentLength`. -/
def HTTPHeaderType.ContentType : String := "Content-Type"

/-- Modelled from the spec: see `HTTPHeaderType.ContentLength`. -/
def HTTPHeaderType.Date : String := "Date"

/-- Modelled from the spec: see `HTTPHeaderType.ContentLength`. -/
def HTTPHeaderType.Server : String := "Server"

/-- Modelled from the spec: see `HTTPHeaderType.ContentLength`. -/
def HTTPHeaderType.Connection : String := "Connection"

/-- Modelled from the spec: see `HTTPHeaderType.ContentLength`. -/
def HTTPHeaderType.TransferEncoding : String := "Transfer-Encoding"

/-- Modelled from the spec: see `HTTPHeaderType.ContentLength`. -/
def HTTPHeaderType.ContentEncoding : String := "Content-Encoding"

/-- `HTTPResponseState` (lines 95-100 of the response source). -/
inductive HTTPResponseState where
  | WritingResponseLine
  | WritingResponseHeaders
  | WritingResponseBody
  | Finished
deriving DecidableEq

/-- What the response writes to the client, as observable wire events.
`bodyBytes n` is `n` raw body bytes (fixed-length mode); `chunkFrame n` is
one chunked frame `hex(n)\r\n` + `n` payload bytes + `\r\n`; `finalChunk`
is the terminating `0\r\n\r\n`. -/
inductive WireEvent where
  | statusLine (code : Nat) (message : String)
  | header (key value : String)
  | endOfHeaders
  | bodyBytes (n : Nat)
  | chunkFrame (n : Nat)
  | finalChunk
deriving DecidableEq

/-- A Node `Writable` reduced to what `writeBody` relies on: the chunks
written into it, and whether `.end()` was called (writes after `end`
fail with `ERR_STREAM_WRITE_AFTER_END`). -/
structure NodeWritable where
  chunks : List (List Nat)
  ended : Bool
deriving DecidableEq

/-- The strings the `HTTPSession` contributes to the default headers: the
`Date` header value and the server name. -/
structure SessionInfo where
  dateString : String
  serverName : String
deriving DecidableEq

/-- The `HTTPResponse` instance state (fields as in the source class;
`out` is the wire trace standing for the client socket and `chunked`
records which framing `_startBody` installed). -/
structure HTTPResponse where
  session : SessionInfo
  excludeBodyFlag : Bool := false
  state : HTTPResponseState := .WritingResponseLine
  bodySize : Option Nat := none
  enqueuedHeaders : Option (List (String × String)) := none
  rawBodyTransforms : Option Nat := none
  bodyTransforms : Option Nat := none
  transferEncoding : Option (List String) := none
  contentEncoding : Option (List String) := none
  connectionPreference : List String := ["keep-alive"]
  sentStatus : Option Nat := none
  bodyWritable : Option NodeWritable := none
  chunked : Option Bool := none
  out : List WireEvent := []
deriving DecidableEq

/-- A fresh response bound to a session (the constructor). -/
def HTTPResponse.make (session : SessionInfo) : HTTPResponse := { session := session }

/-- `get hasBodyTransforms`: `!!this._bodyTransforms`. -/
def HTTPResponse.hasBodyTransforms (r : HTTPResponse) : Bool :=
  r.bodyTransforms.isSome

/-- `HTTPResponse.excludeBody` (sets the exclude-body flag, used for HEAD). -/
def HTTPResponse.excludeBody (r : HTTPResponse) : HTTPResponse :=
  { r with excludeBodyFlag := true }

/-- `HTTPResponse.addBodyTransform`: allowed only while writing the
response line or the headers; pushes onto the raw or the body transform
stack. -/
def HTTPResponse.addBodyTransform (r : HTTPResponse) (raw : Bool := false) :
    Except String HTTPResponse :=
  if r.state ≠ .WritingResponseLine && r.state ≠ .WritingResponseHeaders then
    .error "addBodyTransform not allowed in this state"
  else if raw then .ok { r with rawBodyTransforms := some (r.rawBodyTransforms.getD 0 + 1) }
  else .ok { r with bodyTransforms := some (r.bodyTransforms.getD 0 + 1) }

/-- `HTTPResponse.addTransferEncoding`: create the header object when
absent and push the encoding token. -/
def HTTPResponse.addTransferEncoding (r : HTTPResponse) (encoding : String) : HTTPResponse :=
  { r with transferEncoding := some (r.transferEncoding.getD [] ++ [encoding]) }

/-- `HTTPResponse.addContentEncoding`: create the header object when absent
and push the encoding token. -/
def HTTPResponse.addContentEncoding (r : HTTPResponse) (encoding : String) : HTTPResponse :=
  { r with contentEncoding := some (r.contentEncoding.getD [] ++ [encoding]) }

/-- `HTTPCommaSeparatedValueHeader.encode`: `values.join(", ")`. -/
def encodeCommaSeparated (values : List String) : String :=
  String.intercalate ", " values

/-- `HTTPResponse.header`: while still writing the response line the pair
is enqueued; while writing headers it is written to the wire; any other
state is a programmer error. -/
def HTTPResponse.header (r : HTTPResponse) (key value : String) :
    Except String HTTPResponse :=
  if r.state = .WritingResponseLine then
    .ok { r with enqueuedHeaders := some (r.enqueuedHeaders.getD [] ++ [(key, value)]) }
  else if r.state ≠ .WritingResponseHeaders then
    .error "Cannot write header in this state"
  else
    .ok { r with out := r.out ++ [.header key value] }

/-- `HTTPResponse._writeEnqueuedHeaders`: write every enqueued pair through
`header` and clear the queue. -/
def HTTPResponse.writeEnqueuedHeaders (r : HTTPResponse) : Except String HTTPResponse :=
  match r.enqueuedHeaders with
  | none => .ok r
  | some hs => do
    let r2 ← hs.foldlM (fun acc kv => acc.header kv.1 kv.2) r
    .ok { r2 with enqueuedHeaders := none }

/-- `HTTPResponse._getMessageForStatusCode`: the source `switch` as an
association list in source order; `default` (a lookup miss) is the
`throw new Error(...)` branch. -/
def statusMessages : List (Nat × String) :=
  [(100, "Continue"), (101, "Switching Protocols"), (103, "Early Hints"),
   (200, "OK"), (201, "Created"), (204, "No Content"), (205, "Reset Content"),
   (206, "Partial Content"),
   (400, "Bad Request"), (401, "Unauthorized"), (402, "Payment Required"),
   (403, "Forbidden"), (404, "Not found"), (405, "Method Not Allowed"),
   (406, "Not Acceptable"), (407, "Proxy Authentication Required"),
   (408, "Request Timeout"), (409, "Conflict"), (410, "Gone"),
   (411, "Length Required"), (412, "Precondition Failed"),
   (413, "Payload Too Large"), (414, "URI Too Long"),
   (415, "Unsupported Media Type"), (416, "Range Not Satisfiable"),
   (417, "Expectation Failed"), (418, "I'm a teapot"), (425, "Too Early"),
   (426, "Upgrade Required"), (428, "Precondition Required"),
   (429, "Too Many Requests"), (431, "Request Header Fields Too Large"),
   (451, "Unavailable For Legal Reasons"),
   (500, "Internal server error"), (501, "Not Implemented"),
   (502, "Bad Gateway"), (503, "Service Unavailable"), (504, "Gateway Timeout"),
   (505, "HTTP Version Not Supported"), (506, "Veriant Also Negotiates"),
   (510, "Not Extended"), (511, "Network Authentication Required"),
   (301, "Moved Permanently"), (308, "Permanent Redirect"),
   (302, "Found"), (303, "See Other"), (307, "Temporary Redirect"),
   (300, "Multiple Choice"), (304, "Not Modified")]

/-- `HTTPResponse._getMessageForStatusCode` as a partial map: `none` is the
thrown `Invalid code` error. -/
def getMessageForStatusCode (code : Nat) : Option String :=
  statusMessages.lookup code

/-- JS truthiness of an optional string (`!message`): absent or empty is
falsy. -/
def jsFalsyStr : Option String → Bool
  | none => true
  | some s => s = ""

/-- `HTTPResponse.status`: only legal while writing the response line;
records the code, falls back to the canonical phrase when the supplied one
is falsy (failing for unknown codes), writes the response line, moves to
the header state and flushes the enqueued headers. -/
def HTTPResponse.status (r : HTTPResponse) (code : Nat)
    (message : Option String := none) : Except String HTTPResponse := do
  if r.state ≠ .WritingResponseLine then
    .error "Response status has already been sent!"
  else
    let r := { r with sentStatus := some code }
    let msg ←
      if jsFalsyStr message then
        match getMessageForStatusCode code with
        | some m => Except.ok m
        | none => Except.error "Invalid code"
      else Except.ok (message.getD "")
    let r := { r with out := r.out ++ [WireEvent.statusLine code msg],
                      state := .WritingResponseHeaders }
    r.writeEnqueuedHeaders

/-- `HTTPResponse.defaultHeaders`: `Date`, `Server` and `Connection`
always, then `Content-Encoding` and `Transfer-Encoding` when their header
objects exist. -/
def HTTPResponse.defaultHeaders (r : HTTPResponse) : Except String HTTPResponse := do
  let r ← r.header HTTPHeaderType.Date r.session.dateString
  let r ← r.header HTTPHeaderType.Server r.session.serverName
  let r ← r.header HTTPHeaderType.Connection (encodeCommaSeparated r.connectionPreference)
  let r ←
    match r.contentEncoding with
    | some ce => r.header HTTPHeaderType.ContentEncoding (encodeCommaSeparated ce)
    | none => pure r
  match r.transferEncoding with
  | some te => r.header HTTPHeaderType.TransferEncoding (encodeCommaSeparated te)
  | none => pure r

/-- `HTTPResponse.endHeaders`: only legal while writing headers; writes the
blank line and moves to the body state. -/
def HTTPResponse.endHeaders (r : HTTPResponse) : Except String HTTPResponse :=
  if r.state ≠ .WritingResponseHeaders then .error "Cannot finish headers in this state"
  else .ok { r with out := r.out ++ [.endOfHeaders], state := .WritingResponseBody }

/-- `HTTPResponse.endBody`: only legal while writing the body; moves to
`Finished`. -/
def HTTPResponse.endBody (r : HTTPResponse) : Except String HTTPResponse :=
  if r.state ≠ .WritingResponseBody then .error "Cannot finish body in this state"
  else .ok { r with state := .Finished }

/-- JS truthiness of `this._bodySize` as tested by `!this._bodySize`:
`undefined` AND the number `0` are both falsy. -/
def jsFalsyNat : Option Nat → Bool
  | none => true
  | some n => n = 0

/-- `HTTPResponse._shouldUseChunking`: chunk when `!this._bodySize` (unset
OR zero — JS falsiness), or when body transforms are attached; otherwise
use a fixed-length body.  The older src/HTTPResponse.ts duplicate tests
`this._bodySize === null` here instead. -/
def HTTPResponse.shouldUseChunking (r : HTTPResponse) : Bool :=
  if jsFalsyNat r.bodySize then true
  else if r.hasBodyTransforms then true
  else false

/-- `HTTPResponse._startBody`: choose the framing; in chunked mode push the
`chunked` transfer-encoding token, otherwise write `Content-Length`; write
the default headers, terminate the headers, then install the stream
pipeline (modelled as: a fresh body writable plus the record of the chosen
framing) and enter the body state. -/
def HTTPResponse.startBody (r : HTTPResponse) : Except String HTTPResponse := do
  let chunked := r.shouldUseChunking
  let r ←
    if chunked then pure (r.addTransferEncoding "chunked")
    else if jsFalsyNat r.bodySize then
      Except.error "bodySize is undefined, cannot add content length header"
    else r.header HTTPHeaderType.ContentLength (toString (r.bodySize.getD 0))
  let r ← r.defaultHeaders
  let r ← r.endHeaders
  .ok { r with bodyWritable := some ⟨[], false⟩, chunked := some chunked,
               state := .WritingResponseBody }

/-- `HTTPResponse.writeBody`: only legal in the body state and with a
writable present; writes the buffer into the body writable and immediately
calls `.end()` on it.  A write into an already-ended writable is the
stream error the returned promise rejects with. -/
def HTTPResponse.writeBody (r : HTTPResponse) (buffer : List Nat) :
    Except String HTTPResponse :=
  if r.state ≠ .WritingResponseBody then .error "Cannot write body in this state"
  else
    match r.bodyWritable with
    | none => .error "Body writable must be defined!"
    | some w =>
      if w.ended then .error "write after end"
      else .ok { r with bodyWritable := some ⟨w.chunks ++ [buffer], true⟩ }

/-- The completed effect of piping a readable of `chunks` into the body
writable until the stream closes (the promise bodies of
`sendBufferedBody` / `sendStreamedBody`): each chunk flows through the
framing transform installed by `_startBody` — whose `final` hook emits the
terminating zero chunk in chunked mode and then calls `endBody` — so the
trace gains the framed chunks and the response finishes. -/
def HTTPResponse.pipeBodyToEnd (r : HTTPResponse) (chunks : List (List Nat)) :
    Except String HTTPResponse :=
  match r.chunked, r.bodyWritable with
  | some true, some w =>
    .ok { r with bodyWritable := some ⟨w.chunks ++ chunks, true⟩,
                 out := r.out ++ chunks.map (fun c => .chunkFrame c.length) ++ [.finalChunk],
                 state := .Finished }
  | some false, some w =>
    .ok { r with bodyWritable := some ⟨w.chunks ++ chunks, true⟩,
                 out := r.out ++ chunks.map (fun c => .bodyBytes c.length),
                 state := .Finished }
  | _, _ => .error "body streams not prepared"

/-- `HTTPResponse.sendBufferedBody`: only legal while writing headers; set
the body size from the buffer, start the body and pipe the buffer through
until the writable closes. -/
def HTTPResponse.sendBufferedBody (r : HTTPResponse) (buffer : List Nat) :
    Except String HTTPResponse := do
  if r.state ≠ .WritingResponseHeaders then
    .error "Not allowed to write buffered body in this state"
  else
    let r := { r with bodySize := some buffer.length }
    let r ← r.startBody
    r.pipeBodyToEnd [buffer]

/-- `HTTPResponse.sendEmptyBody` (used for HEAD): default headers, end of
headers, end of body — note that `_startBody` is never reached on this
path, so neither `Content-Length` nor the chunked framing is set up. -/
def HTTPResponse.sendEmptyBody (r : HTTPResponse) : Except String HTTPResponse := do
  let r ← r.defaultHeaders
  let r ← r.endHeaders
  r.endBody

/-- `HTTPResponse.sendStreamedBody`: only legal while writing headers;
start the body and pipe the readable's chunks through until close. -/
def HTTPResponse.sendStreamedBody (r : HTTPResponse) (chunks : List (List Nat)) :
    Except String HTTPResponse := do
  if r.state ≠ .WritingResponseHeaders then
    .error "Not allowed to write streamed body in this state"
  else
    let r ← r.startBody
    r.pipeBodyToEnd chunks

/-- `HTTPResponse._httpContentTypeFromFileExtension`: the static
extension-to-media-type table. -/
def httpContentTypeFromFileExtension (extension : String) : String :=
  if extension = ".html" then "text/html"
  else if extension = ".txt" then "text/plain"
  else if extension = ".jpg" then "image/jpeg"
  else if extension = ".css" then "text/css"
  else if extension = ".js" then "text/javascript"
  else if extension = ".mp4" then "video/mp4"
  else "application/octet-stream"

/-- `HTTPResponse.buffer`: write the `Content-Type` header (enqueued, since
the status line is not out yet), then the status line, then the buffered
body. -/
def HTTPResponse.buffer (r : HTTPResponse) (buf : List Nat) (status : Nat := 200)
    (contentType : String := "text/plain") : Except String HTTPResponse := do
  let r ← r.header HTTPHeaderType.ContentType contentType
  let r ← r.status status
  r.sendBufferedBody buf

/-- `HTTPResponse.file`: `fs.stat` is replaced by the `fileSize` argument
and the file's bytes by `chunks`; the extension decides the media type.
Sets the body size from the stat, writes the status line and the
`Content-Type` header; with the exclude-body flag set it finishes through
`sendEmptyBody`, otherwise it streams the file contents. -/
def HTTPResponse.file (r : HTTPResponse) (fileExtension : String) (fileSize : Nat)
    (chunks : List (List Nat)) (status : Nat := 200) : Except String HTTPResponse := do
  let httpContentType := httpContentTypeFromFileExtension fileExtension
  let r := { r with bodySize := some fileSize }
  let r ← r.status status
  let r ← r.header HTTPHeaderType.ContentType httpContentType
  if r.excludeBodyFlag then
    r.sendEmptyBody
  else
    r.sendStreamedBody chunks

/-- The header lines of a wire trace, in emission order. -/
def wireHeaders (out : List WireEvent) : List (String × String) :=
  out.filterMap fun e =>
    match e with
    | .header k v => some (k, v)
    | _ => none

/-- The number of body payload bytes a wire trace carries. -/
def wireBodyByteCount (out : List WireEvent) : Nat :=
  (out.map fun e =>
    match e with
    | .bodyBytes n => n
    | .chunkFrame n => n
    | _ => 0).sum

/-- Whether a wire trace contains chunked framing. -/
def wireHasChunkFraming (out : List WireEvent) : Bool :=
  out.any fun e =>
    match e with
    | .chunkFrame _ => true
    | .finalChunk => true
    | _ => false

/-- The status-code table enumerated by claim C7: 1xx informational (100,
101, 103), 2xx successful (200, 201, 204, 205, 206), 3xx redirection (300,
301-304, 307, 308), 4xx client error (400-418, 425, 426, 428, 429, 431,
451) and 5xx server error (500-506, 510, 511). -/
def claimStatusCode (c : Nat) : Prop :=
  (c = 100 ∨ c = 101 ∨ c = 103) ∨
  (c = 200 ∨ c = 201 ∨ c = 204 ∨ c = 205 ∨ c = 206) ∨
  (c = 300 ∨ (301 ≤ c ∧ c ≤ 304) ∨ c = 307 ∨ c = 308) ∨
  ((400 ≤ c ∧ c ≤ 418) ∨ c = 425 ∨ c = 426 ∨ c = 428 ∨ c = 429 ∨ c = 431 ∨ c = 451) ∨
  ((500 ≤ c ∧ c ≤ 506) ∨ c = 510 ∨ c = 511)

/-- The compiled matcher of the route pattern "a": one literal segment, no
wildcard (what `HTTPPathMatcher.fromPath "a"` produces). -/
def matcherLitA : HTTPPathMatcher := ⟨[HTTPPathSegment.lit "a"], false, []⟩

/-- A sub-router with a single wildcard-method rule for pattern "a". -/
def demoSubRouter : List (HTTPSimpleRouterElement Nat) :=
  [(none, matcherLitA, HTTPSimpleRouterHandler.callback 0)]

/-- A router whose only rule mounts `demoSubRouter` under the
non-wildcard pattern "a" (so a match of the outer rule has no remainder). -/
def demoRouterC5 : List (HTTPSimpleRouterElement Nat) :=
  [(none, matcherLitA, HTTPSimpleRouterHandler.router demoSubRouter)]

/-- A response already in the body-writing state with a fresh body
writable (the state right after `_startBody`), used to witness the
`writeBody` theorem. -/
def demoBodyResponse : HTTPResponse :=
  { session := ⟨"d", "s"⟩, state := .WritingResponseBody,
    bodyWritable := some ⟨[], false⟩ }

/-- A flat three-rule router (all handlers callbacks) used to witness the
dispatch theorem: a wildcard-method rule, a GET rule and another
wildcard-method rule, all for pattern "a". -/
def demoFlatRouter : List (HTTPSimpleRouterElement Nat) :=
  [(none, matcherLitA, HTTPSimpleRouterHandler.callback 0),
   (some HTTPSimpleRouterMethod.GET, matcherLitA, HTTPSimpleRouterHandler.callback 1),
   (none, matcherLitA, HTTPSimpleRouterHandler.callback 2)]

/-! ## Theorems settling the claims -/

/-- C1: the claim requires that for every SET body size S — including
S = 0 — with no body transform attached, the response emits
`Content-Length: S` and sends exactly S bytes without chunked framing.
The code violates this at S = 0: `_shouldUseChunking` tests
`!this._bodySize`, and the JS `!` operator treats the number 0 like an
unset value, so a response whose body size is set to 0 (here: a buffered
response of an empty buffer) is sent chunked, with a `Transfer-Encoding`
header, no `Content-Length` header, and chunked framing on the wire.
(The older duplicate in src/HTTPResponse.ts tests `this._bodySize === null`
and does not have this slip, evidence that the falsy test is accidental.) -/
theorem c1_bodySize_zero_uses_chunking :
    ((HTTPResponse.make ⟨"d", "s"⟩).buffer [] 200 "text/plain").map
        (fun r => ((wireHeaders r.out).map Prod.fst, wireHasChunkFraming r.out,
                   wireBodyByteCount r.out))
      = Except.ok (["Content-Type", "Date", "Server", "Connection", "Transfer-Encoding"],
                   true, 0) := by
  rfl

/-- C3: the claim says the path normalization collapses every run of
consecutive `/` into a single `/` (the code's own comment says the same).
The code instead executes `pathString.replace(/\\+/, "/")`, whose regexp
matches BACKSLASHES (and only the first run, the `g` flag being absent):
forward-slash runs survive, so `////foo///` cleans to `///foo//` (not
`foo`), while a backslash run is what actually gets replaced. -/
theorem c3_cleanPath_does_not_collapse_slashes :
    HTTPPathMatcher.cleanPath "////foo///" = "///foo//" ∧
    HTTPPathMatcher.cleanPath "a\\\\b" = "a/b" := by
  constructor <;> rfl

/-- C4: the claim (property P7) says `match(path)` and
`match(normalize(path))` agree for every compiled matcher and path.  Since
`cleanPath` fails to collapse slash runs it is not idempotent
(`cleanPath "//a//" = "/a/"` but `cleanPath "/a/" = "a"`), so for the
matcher compiled from "a": matching `//a//` fails while matching its own
normalization `/a/` succeeds. -/
theorem c4_match_not_idempotent_under_cleanPath :
    (HTTPPathMatcher.fromPath "a").map (fun m => m.matchPath "//a//")
      = Except.ok none ∧
    (HTTPPathMatcher.fromPath "a").map
        (fun m => m.matchPath (HTTPPathMatcher.cleanPath "//a//"))
      = Except.ok (some ⟨[], none⟩) := by
  constructor <;> rfl

/-- Size/content invariant of the queue under any operation sequence: the
linked list reachable from the head pointer is the reference FIFO list and
the `_size` counter is its length. -/
theorem Queue.runOps_front_size {T : Type} (q : Queue T)
    (h : q.size = q.front.length) (ops : List (QueueOp T)) :
    (Queue.runOps q ops).front = ops.foldl queueSpecStep q.front ∧
    (Queue.runOps q ops).size = (ops.foldl queueSpecStep q.front).length := by
  induction ops generalizing q with
  | nil => exact ⟨rfl, h⟩
  | cons op rest ih =>
    cases op with
    | enq v =>
      have := ih (q.enqueue v) (by simp [Queue.enqueue, h])
      simpa [Queue.runOps, Queue.runOp, Queue.enqueue, queueSpecStep, List.foldl] using this
    | deq =>
      by_cases hz : q.size = 0
      · have hfront : q.front = [] := by
          have := h; rw [hz] at this
          exact (List.eq_nil_of_length_eq_zero this.symm)
        have := ih (q.dequeue).2 (by simp [Queue.dequeue, hz, hfront, h])
        simpa [Queue.runOps, Queue.runOp, Queue.dequeue, hz, hfront, queueSpecStep,
               List.foldl] using this
      · match hf : q.front with
        | [] =>
          exfalso
          rw [hf] at h
          simp at h
          exact hz h
        | v :: restq =>
          have hsz : q.size - 1 = restq.length := by
            rw [hf] at h; simp at h; omega
          have := ih (q.dequeue).2 (by simp [Queue.dequeue, hz, hf, hsz])
          simpa [Queue.runOps, Queue.runOp, Queue.dequeue, hz, hf, queueSpecStep,
                 List.foldl] using this

/-- C10: for every queue reachable by a sequence of enqueue/dequeue
operations from a fresh queue — the reference FIFO list being the values
enqueued and not yet dequeued, in enqueue order — the stored list IS that
reference list, the size equals its length (so size always counts the
values enqueued and not yet dequeued), and dequeue returns `undefined` and
leaves the queue unchanged when the queue is empty, and otherwise returns
the least recently enqueued value while decrementing the size by one. -/
theorem c10_queue_dequeue_fifo {T : Type} (ops : List (QueueOp T)) :
    (Queue.runOps Queue.init ops).front = queueSpec ops ∧
    (Queue.runOps Queue.init ops).size = (queueSpec ops).length ∧
    (Queue.runOps Queue.init ops).dequeue =
      (match queueSpec ops with
       | [] => (none, Queue.runOps Queue.init ops)
       | v :: rest => (some v, ⟨rest, rest.length⟩)) := by
  obtain ⟨h1, h2⟩ := Queue.runOps_front_size (Queue.init (T := T)) rfl ops
  have hspec : queueSpec ops = ops.foldl queueSpecStep (Queue.init (T := T)).front := rfl
  rw [← hspec] at h1 h2
  refine ⟨h1, h2, ?_⟩
  match hq : queueSpec ops with
  | [] =>
    have hz : (Queue.runOps Queue.init ops).size = 0 := by rw [h2, hq]; rfl
    simp [Queue.dequeue, hz]
  | v :: rest =>
    have hz : (Queue.runOps Queue.init ops).size ≠ 0 := by
      rw [h2, hq]; simp
    have hfront : (Queue.runOps Queue.init ops).front = v :: rest := by rw [h1, hq]
    have hsz : (Queue.runOps Queue.init ops).size - 1 = rest.length := by
      rw [h2, hq]; simp
    simp [Queue.dequeue, hz, hfront, hsz]

/-- C5, counterexample: the claim says a selected sub-router evaluates its
rules against the ORIGINAL path when no wildcard remainder is present.  In
the source the recursion uses `httpUriMatcherResult.remainder ?? ""`, i.e.
the EMPTY STRING.  For a router that mounts a sub-router under the
non-wildcard pattern "a" (sub-rule also "a") and the request path "a", the
source-derived `callbacks` selects nothing, while the claim's reading
(`callbacksClaimC5`) selects the sub-rule. -/
theorem c5_counterexample_subrouter_empty_path :
    HTTPSimpleRouter.callbacks demoRouterC5 HTTPSimpleRouterMethod.GET "a" = [] ∧
    callbacksClaimC5 demoRouterC5 HTTPSimpleRouterMethod.GET "a"
      = [(⟨[], none⟩, 0)] := by
  constructor
  · simp [demoRouterC5, demoSubRouter, HTTPSimpleRouter.callbacks]
    exact fun _ => rfl
  · simp [demoRouterC5, demoSubRouter, callbacksClaimC5]
    rfl

/-- C5, amended: for every selected rule whose handler is a sub-router, the
sub-router recursively evaluates its own rules against the matched wildcard
remainder when one is present, and against the EMPTY STRING when no
wildcard remainder is present (`remainder ?? ""`), its results preceding
those of the remaining rules. -/
theorem c5_amended_subrouter_dispatch {κ : Type}
    (ruleMethod : Option HTTPSimpleRouterMethod) (matcher : HTTPPathMatcher)
    (inner rest : List (HTTPSimpleRouterElement κ))
    (method : HTTPSimpleRouterMethod) (path : String) (result : HTTPPathMatch)
    (hsel : methodSelects ruleMethod method = true)
    (hmatch : matcher.matchPath path = some result) :
    HTTPSimpleRouter.callbacks
        ((ruleMethod, matcher, HTTPSimpleRouterHandler.router inner) :: rest) method path
      = HTTPSimpleRouter.callbacks inner method (result.remainder.getD "") ++
        HTTPSimpleRouter.callbacks rest method path := by
  rw [HTTPSimpleRouter.callbacks]
  simp [hsel, hmatch]

/-- Witness for the amended C5 theorem at the concrete router of the
counterexample: the outer rule matches "a" with no remainder and the
sub-router is dispatched on the empty string. -/
theorem c5_amended_witness :
    HTTPSimpleRouter.callbacks demoRouterC5 HTTPSimpleRouterMethod.GET "a"
      = HTTPSimpleRouter.callbacks demoSubRouter HTTPSimpleRouterMethod.GET "" ++
        HTTPSimpleRouter.callbacks ([] : List (HTTPSimpleRouterElement Nat))
          HTTPSimpleRouterMethod.GET "a" :=
  c5_amended_subrouter_dispatch none matcherLitA demoSubRouter []
    HTTPSimpleRouterMethod.GET "a" ⟨[], none⟩ rfl rfl

/-- C8, counterexample: the claim says keys are folded to lowercase so that
add, SET, get-all and get-one treat keys case-insensitively.
`setSingleHeader` does not fold its key: after `setSingleHeader "A" "v"`
the value is stored under `"A"`, and `getHeader "A"` (which folds its
lookup key to `"a"`) finds nothing — under the claim it would have to
return `some ["v"]`. -/
theorem c8_counterexample_set_key_not_folded :
    HTTPHeaders.getHeader (HTTPHeaders.setSingleHeader [] "A" "v") "A" = none := by
  rfl

/-- Reading back the key just written on a JS object. -/
theorem jsObjGet_jsObjSet_self (m : HTTPHeaders) (k : String) (v : HeaderValue) :
    jsObjGet (jsObjSet m k v) k = some v := by
  induction m with
  | nil => simp [jsObjSet, jsObjGet]
  | cons kv rest ih =>
    obtain ⟨k2, v2⟩ := kv
    by_cases h : k2 = k
    · simp [jsObjSet, jsObjGet, h]
    · simp [jsObjSet, jsObjGet, h, ih]

/-- C8, amended: `addHeader`, `getHeader` and `getSingleHeader` fold their
key to lowercase — any two keys with the same lowercase image are
interchangeable — and repeated adds under the same key preserve the
insertion order of the values; `setSingleHeader`, however, stores under the
exact key given, without folding (see the counterexample).  The nonemptiness
side conditions exclude the empty string, which the source's JS truthiness
tests treat like an absent value. -/
theorem c8_amended_header_case_folding :
    (∀ (m : HTTPHeaders) (k k2 v : String), jsToLowerCase k = jsToLowerCase k2 →
        HTTPHeaders.addHeader m k v = HTTPHeaders.addHeader m k2 v) ∧
    (∀ (m : HTTPHeaders) (k k2 : String), jsToLowerCase k = jsToLowerCase k2 →
        HTTPHeaders.getHeader m k = HTTPHeaders.getHeader m k2) ∧
    (∀ (m : HTTPHeaders) (k k2 : String) (i : Nat), jsToLowerCase k = jsToLowerCase k2 →
        HTTPHeaders.getSingleHeader m k i = HTTPHeaders.getSingleHeader m k2 i) ∧
    (∀ (m : HTTPHeaders) (k v : String) (l : List String),
        jsObjGet m (jsToLowerCase k) = some (HeaderValue.multi l) →
        HTTPHeaders.getHeader (HTTPHeaders.addHeader m k v) k = some (l ++ [v])) ∧
    (∀ (m : HTTPHeaders) (k v s : String), s ≠ "" →
        jsObjGet m (jsToLowerCase k) = some (HeaderValue.single s) →
        HTTPHeaders.getHeader (HTTPHeaders.addHeader m k v) k = some [s, v]) ∧
    (∀ (k v : String), v ≠ "" →
        HTTPHeaders.getHeader (HTTPHeaders.addHeader [] k v) k = some [v]) := by
  refine ⟨?_, ?_, ?_, ?_, ?_, ?_⟩
  · intro m k k2 v h
    simp only [HTTPHeaders.addHeader, h]
  · intro m k k2 h
    simp only [HTTPHeaders.getHeader, h]
  · intro m k k2 i h
    simp only [HTTPHeaders.getSingleHeader, h]
  · intro m k v l h
    simp [HTTPHeaders.addHeader, HTTPHeaders.getHeader, h, jsFalsyHeader,
          jsObjGet_jsObjSet_self]
  · intro m k v s hs h
    simp [HTTPHeaders.addHeader, HTTPHeaders.getHeader, h, jsFalsyHeader, hs,
          jsObjGet_jsObjSet_self]
  · intro k v hv
    simp [HTTPHeaders.addHeader, HTTPHeaders.getHeader, jsObjGet, jsFalsyHeader, hv,
          jsObjGet_jsObjSet_self]

/-- Witness for the amended C8 theorem: a third add under an
differently-cased spelling of an existing two-value key appends in order. -/
theorem c8_amended_witness :
    HTTPHeaders.getHeader
        (HTTPHeaders.addHeader [("x-test", HeaderValue.multi ["v1", "v2"])] "X-Test" "v3")
        "X-Test" = some ["v1", "v2", "v3"] :=
  c8_amended_header_case_folding.2.2.2.1 [("x-test", HeaderValue.multi ["v1", "v2"])]
    "X-Test" "v3" ["v1", "v2"] rfl

/-- C9: a successful `writeBody` requires the body-writing state and a
not-yet-ended body writable; it writes the buffer into the writable and
immediately `end()`s it, so the successful result has the buffer as the
writable's final chunk and the writable ended — and any later `writeBody`
on that response fails (write after end), contributing no further data.
Hence at most one `writeBody` call contributes body bytes per response. -/
theorem c9_writeBody_writes_then_ends (r r2 : HTTPResponse) (b b2 : List Nat)
    (h : r.writeBody b = Except.ok r2) :
    (∃ w, r.bodyWritable = some w ∧ w.ended = false ∧
        r2.bodyWritable = some ⟨w.chunks ++ [b], true⟩) ∧
    (∀ r3, r2.writeBody b2 ≠ Except.ok r3) := by
  simp only [HTTPResponse.writeBody] at h
  split at h
  · cases h
  · rename_i hstate
    split at h
    · cases h
    · rename_i w hw
      split at h
      · cases h
      · rename_i hended
        cases h
        refine ⟨⟨w, hw, by simpa using hended, rfl⟩, ?_⟩
        intro r3
        simp [HTTPResponse.writeBody, hstate]

/-- Witness for the C9 theorem: from a fresh body-writing response, one
`writeBody` succeeds with the written chunk and an ended writable. -/
theorem c9_witness :
    (∃ w, demoBodyResponse.bodyWritable = some w ∧ w.ended = false ∧
        ({ demoBodyResponse with
            bodyWritable := some ⟨[[1]], true⟩ } : HTTPResponse).bodyWritable
          = some ⟨w.chunks ++ [[1]], true⟩) ∧
    (∀ r3, ({ demoBodyResponse with
        bodyWritable := some ⟨[[1]], true⟩ } : HTTPResponse).writeBody [2]
          ≠ Except.ok r3) :=
  c9_writeBody_writes_then_ends demoBodyResponse
    { demoBodyResponse with bodyWritable := some ⟨[[1]], true⟩ } [1] [2] rfl

/-- A lookup in an association list succeeds exactly for the stored keys. -/
theorem lookup_isSome_iff_mem_keys (l : List (Nat × String)) (c : Nat) :
    (l.lookup c).isSome ↔ c ∈ l.map Prod.fst := by
  induction l with
  | nil => simp [List.lookup]
  | cons kv rest ih =>
    obtain ⟨k, v⟩ := kv
    simp only [List.lookup, List.map_cons, List.mem_cons]
    by_cases h : c = k
    · simp [h]
    · have hbeq : (c == k) = false := beq_false_of_ne h
      simp [hbeq, h, ih]

/-- C7: the canonical-phrase table `_getMessageForStatusCode` yields a
phrase exactly for the status codes enumerated by the claim — 1xx
informational (100, 101, 103), 2xx successful (200, 201, 204, 205, 206),
3xx redirection (300, 301-304, 307, 308), 4xx client error (400-418, 425,
426, 428, 429, 431, 451), 5xx server error (500-506, 510, 511) — and
writing a status without a supplied reason phrase succeeds exactly for
those codes: any code outside the table fails with the thrown
programmer error (`Invalid code`). -/
theorem c7_status_code_table (code : Nat) (sess : SessionInfo) :
    ((getMessageForStatusCode code).isSome ↔ claimStatusCode code) ∧
    ((∃ r, (HTTPResponse.make sess).status code none = Except.ok r) ↔ claimStatusCode code) := by
  have hkeys : (getMessageForStatusCode code).isSome ↔ claimStatusCode code := by
    rw [getMessageForStatusCode, lookup_isSome_iff_mem_keys]
    constructor
    · intro h
      simp [statusMessages] at h
      unfold claimStatusCode
      omega
    · intro h
      unfold claimStatusCode at h
      simp [statusMessages]
      omega
  refine ⟨hkeys, ?_⟩
  rw [← hkeys]
  cases hm : getMessageForStatusCode code with
  | some m =>
    simp only [Option.isSome_some, iff_true]
    exact ⟨{ session := sess, sentStatus := some code,
             out := [WireEvent.statusLine code m],
             state := .WritingResponseHeaders }, by
      simp [HTTPResponse.status, HTTPResponse.make, jsFalsyStr, hm,
            HTTPResponse.writeEnqueuedHeaders, Bind.bind, Except.bind]⟩
  | none =>
    simp only [Option.isSome_none, Bool.false_eq_true, iff_false, not_exists]
    intro r
    simp [HTTPResponse.status, HTTPResponse.make, jsFalsyStr, hm,
          HTTPResponse.writeEnqueuedHeaders, Bind.bind, Except.bind]

/-- C6, counterexample: the claim says a HEAD (exclude-body) response
emits ALL the headers a GET would have produced — including, when the body
size is known, `Content-Length`.  For `file` on a 412-byte `.html` file the
GET wire trace carries `Content-Length` while the HEAD trace does not: the
exclude-body path finishes through `sendEmptyBody`, which never reaches
`_startBody`, the only place the `Content-Length` header is written. -/
theorem c6_counterexample_head_drops_content_length :
    (((HTTPResponse.make ⟨"d", "s"⟩).excludeBody).file ".html" 412
          [List.replicate 412 0] 200).map
        (fun r => ((wireHeaders r.out).map Prod.fst, wireBodyByteCount r.out))
      = Except.ok (["Content-Type", "Date", "Server", "Connection"], 0) ∧
    ((HTTPResponse.make ⟨"d", "s"⟩).file ".html" 412 [List.replicate 412 0] 200).map
        (fun r => (wireHeaders r.out).map Prod.fst)
      = Except.ok (["Content-Type", "Content-Length", "Date", "Server", "Connection"]) := by
  constructor <;> rfl

/-- C6, amended: for every response with the exclude-body flag set, `file`
emits the status line, the `Content-Type` header and the default headers
(`Date`, `Server`, `Connection`), terminates the headers and reaches
`Finished` without transmitting any body bytes — but, unlike what a GET
would produce, it does NOT emit a `Content-Length` header even when the
body size is known (see the counterexample). -/
theorem c6_amended_head_headers_and_no_body (sess : SessionInfo) (ext : String)
    (fileSize status : Nat) (chunks : List (List Nat)) (m : String)
    (hm : getMessageForStatusCode status = some m) :
    ∃ r, ((HTTPResponse.make sess).excludeBody).file ext fileSize chunks status
        = Except.ok r ∧
      r.out = [WireEvent.statusLine status m,
               .header HTTPHeaderType.ContentType (httpContentTypeFromFileExtension ext),
               .header HTTPHeaderType.Date sess.dateString,
               .header HTTPHeaderType.Server sess.serverName,
               .header HTTPHeaderType.Connection (encodeCommaSeparated ["keep-alive"]),
               .endOfHeaders] ∧
      r.state = HTTPResponseState.Finished ∧
      wireBodyByteCount r.out = 0 ∧
      HTTPHeaderType.ContentLength ∉ (wireHeaders r.out).map Prod.fst := by
  refine ⟨{ session := sess, excludeBodyFlag := true,
            state := .Finished, bodySize := some fileSize,
            sentStatus := some status,
            out := [WireEvent.statusLine status m,
                    .header HTTPHeaderType.ContentType (httpContentTypeFromFileExtension ext),
                    .header HTTPHeaderType.Date sess.dateString,
                    .header HTTPHeaderType.Server sess.serverName,
                    .header HTTPHeaderType.Connection (encodeCommaSeparated ["keep-alive"]),
                    .endOfHeaders] }, ?_, rfl, rfl, ?_, ?_⟩
  · simp [HTTPResponse.file, HTTPResponse.status, HTTPResponse.make, HTTPResponse.excludeBody,
          HTTPResponse.header, HTTPResponse.sendEmptyBody, HTTPResponse.defaultHeaders,
          HTTPResponse.endHeaders, HTTPResponse.endBody, HTTPResponse.writeEnqueuedHeaders,
          jsFalsyStr, hm, Bind.bind, Except.bind, Pure.pure, Except.pure]
  · rfl
  · simp [wireHeaders, HTTPHeaderType.ContentLength, HTTPHeaderType.ContentType,
          HTTPHeaderType.Date, HTTPHeaderType.Server, HTTPHeaderType.Connection]

/-- Witness for the amended C6 theorem at the counterexample's input. -/
theorem c6_amended_witness :
    ∃ r, ((HTTPResponse.make ⟨"d", "s"⟩).excludeBody).file ".html" 412
          [List.replicate 412 0] 200 = Except.ok r ∧
      r.out = [WireEvent.statusLine 200 "OK",
               .header HTTPHeaderType.ContentType (httpContentTypeFromFileExtension ".html"),
               .header HTTPHeaderType.Date (SessionInfo.mk "d" "s").dateString,
               .header HTTPHeaderType.Server (SessionInfo.mk "d" "s").serverName,
               .header HTTPHeaderType.Connection (encodeCommaSeparated ["keep-alive"]),
               .endOfHeaders] ∧
      r.state = HTTPResponseState.Finished ∧
      wireBodyByteCount r.out = 0 ∧
      HTTPHeaderType.ContentLength ∉ (wireHeaders r.out).map Prod.fst :=
  c6_amended_head_headers_and_no_body ⟨"d", "s"⟩ ".html" 412 200
    [List.replicate 412 0] "OK" rfl

/-- On a rule list whose handlers are all callbacks, `callbacks` is the
in-order filter of the rules by the selection condition of claim C2. -/
theorem callbacks_flat_filterMap {κ : Type}
    (elems : List (HTTPSimpleRouterElement κ))
    (method : HTTPSimpleRouterMethod) (path : String)
    (hflat : ∀ e ∈ elems, ∃ k, e.2.2 = HTTPSimpleRouterHandler.callback k) :
    HTTPSimpleRouter.callbacks elems method path
      = elems.filterMap (fun e =>
          if ruleSelected method path e then
            match e.2.1.matchPath path, e.2.2 with
            | some result, HTTPSimpleRouterHandler.callback k => some (result, k)
            | _, _ => none
          else none) := by
  induction elems with
  | nil => simp [HTTPSimpleRouter.callbacks]
  | cons e rest ih =>
    obtain ⟨rm, matcher, h⟩ := e
    have hrest := fun e he => hflat e (List.mem_cons_of_mem _ he)
    obtain ⟨k, hk⟩ := hflat (rm, matcher, h) (List.mem_cons_self _ _)
    simp only at hk
    subst hk
    rw [HTTPSimpleRouter.callbacks]
    by_cases hm : methodSelects rm method = true
    · cases hmp : matcher.matchPath path with
      | none => simp [hm, hmp, ruleSelected, ih hrest, List.filterMap_cons]
      | some result => simp [hm, hmp, ruleSelected, ih hrest, List.filterMap_cons]
    · simp only [Bool.not_eq_true] at hm
      simp [hm, ruleSelected, ih hrest, List.filterMap_cons]

/-- The dispatch loop invokes every callback before the first
false-returning one, that callback itself, and nothing after it. -/
theorem runCallbacks_stops_at_first_false {κ : Type} (beh : κ → Bool)
    (l1 : List (HTTPPathMatch × κ)) (p : HTTPPathMatch × κ) (l2 : List (HTTPPathMatch × κ))
    (h1 : ∀ x ∈ l1, beh x.2 = true) (h2 : beh p.2 = false) :
    runCallbacks beh (l1 ++ p :: l2) = l1.map Prod.snd ++ [p.2] := by
  induction l1 with
  | nil =>
    obtain ⟨pm, k⟩ := p
    simp only at h2
    simp [runCallbacks, h2]
  | cons q restq ih =>
    obtain ⟨qm, qk⟩ := q
    have hq : beh qk = true := h1 (qm, qk) (List.mem_cons_self _ _)
    simp [runCallbacks, hq, ih (fun x hx => h1 x (List.mem_cons_of_mem _ hx))]

/-- When every selected callback returns true, the dispatch loop invokes
all of them, in order. -/
theorem runCallbacks_all_true {κ : Type} (beh : κ → Bool)
    (l : List (HTTPPathMatch × κ)) (h : ∀ x ∈ l, beh x.2 = true) :
    runCallbacks beh l = l.map Prod.snd := by
  induction l with
  | nil => simp [runCallbacks]
  | cons q restq ih =>
    obtain ⟨qm, qk⟩ := q
    have hq : beh qk = true := h (qm, qk) (List.mem_cons_self _ _)
    simp [runCallbacks, hq, ih (fun x hx => h x (List.mem_cons_of_mem _ hx))]

/-- C2: for a router whose registered rules are all callback rules,
dispatch selects, walking the rules in insertion order, exactly those rules
whose method is the wildcard, equals the request method, or is GET while
the request method is HEAD, AND whose compiled matcher matches the path;
the selected callbacks are invoked strictly in that order — once a callback
returns false the invocation list is the true-returning prefix plus that
callback, so no later callback in the chain runs; when all return true all
are invoked in order; and `handle` is exactly this loop over the callbacks
selected on the cleaned dispatch path. -/
theorem c2_dispatch_selection_order_short_circuit {κ : Type}
    (elems : List (HTTPSimpleRouterElement κ)) (beh : κ → Bool)
    (method : HTTPSimpleRouterMethod) (path : String)
    (hflat : ∀ e ∈ elems, ∃ k, e.2.2 = HTTPSimpleRouterHandler.callback k) :
    HTTPSimpleRouter.callbacks elems method path
      = elems.filterMap (fun e =>
          if ruleSelected method path e then
            match e.2.1.matchPath path, e.2.2 with
            | some result, HTTPSimpleRouterHandler.callback k => some (result, k)
            | _, _ => none
          else none) ∧
    (∀ l1 p l2, HTTPSimpleRouter.callbacks elems method path = l1 ++ p :: l2 →
        (∀ x ∈ l1, beh x.2 = true) → beh p.2 = false →
        runCallbacks beh (HTTPSimpleRouter.callbacks elems method path)
          = l1.map Prod.snd ++ [p.2]) ∧
    ((∀ x ∈ HTTPSimpleRouter.callbacks elems method path, beh x.2 = true) →
        runCallbacks beh (HTTPSimpleRouter.callbacks elems method path)
          = (HTTPSimpleRouter.callbacks elems method path).map Prod.snd) ∧
    HTTPSimpleRouter.handle elems beh method path
      = runCallbacks beh
          (HTTPSimpleRouter.callbacks elems method (HTTPSimpleRouter.cleanPath path)) := by
  refine ⟨callbacks_flat_filterMap elems method path hflat, ?_, ?_, rfl⟩
  · intro l1 p l2 heq h1 h2
    rw [heq]
    exact runCallbacks_stops_at_first_false beh l1 p l2 h1 h2
  · intro h
    exact runCallbacks_all_true beh _ h

/-- Witness for the C2 theorem on a concrete three-rule router with a
behaviour that returns false at callback 1: callbacks 0 and 1 run, 2 does
not. -/
theorem c2_witness :
    HTTPSimpleRouter.callbacks demoFlatRouter HTTPSimpleRouterMethod.GET "a"
      = demoFlatRouter.filterMap (fun e =>
          if ruleSelected HTTPSimpleRouterMethod.GET "a" e then
            match e.2.1.matchPath "a", e.2.2 with
            | some result, HTTPSimpleRouterHandler.callback k => some (result, k)
            | _, _ => none
          else none) ∧
    runCallbacks (fun k => k == 0)
        (HTTPSimpleRouter.callbacks demoFlatRouter HTTPSimpleRouterMethod.GET "a")
      = [0, 1] := by
  have hflat : ∀ e ∈ demoFlatRouter, ∃ k, e.2.2 = HTTPSimpleRouterHandler.callback k := by
    intro e he
    simp [demoFlatRouter] at he
    rcases he with rfl | rfl | rfl
    · exact ⟨0, rfl⟩
    · exact ⟨1, rfl⟩
    · exact ⟨2, rfl⟩
  have h := c2_dispatch_selection_order_short_circuit demoFlatRouter
    (fun k => k == 0) HTTPSimpleRouterMethod.GET "a" hflat
  refine ⟨h.1, ?_⟩
  have heq : HTTPSimpleRouter.callbacks demoFlatRouter HTTPSimpleRouterMethod.GET "a"
      = [(⟨[], none⟩, 0)] ++ (⟨[], none⟩, 1) :: [(⟨[], none⟩, 2)] := by
    simp [demoFlatRouter, HTTPSimpleRouter.callbacks]
    rfl
  have hrun := h.2.1 [(⟨[], none⟩, 0)] (⟨[], none⟩, 1) [(⟨[], none⟩, 2)] heq
    (by intro x hx; simp at hx; subst hx; rfl) rfl
  rw [hrun]
  rfl
